import Mathlib

set_option linter.unusedVariables false

/-!
Shallow embedding of the BenYehudaData harvesting pipeline
(`src/scraper/benyehuda_scraper.py`, class `BenYehudaAPI`) and of the
dataset row parsing of `src/ben_yehuda_dataset.py`
(`BenYehudaDataset.__init__`).

Network and filesystem effects are made explicit: the successive outcomes
of `search_texts` calls are a script (`List SearchResult`), the outcome of
the `k`-th `get_texts_batch` network call is `batchResp k`, and whether the
file write for work id `i` succeeds is `writeOk i`.
-/

/-- A work dict as seen by the coordinator: its `id` field (`none` models a
missing `id`; Python treats both `None` and `0` as falsy) plus an opaque
string standing for the rest of the dict. -/
structure Work where
  wid : Option Nat
  content : String
deriving DecidableEq, Repr

/-- Outcome of one `search_texts` call inside `get_all_works`
(benyehuda_scraper.py, lines 103-130): an exception (`err`, logged and
`break`), or a response carrying its `data` list and the truthiness of
`next_page_search_after`. -/
inductive SearchResult
  | err
  | page (data : List Work) (next : Bool)
deriving DecidableEq, Repr

/-- `BenYehudaAPI.get_all_works` (lines 103-130): keep pulling pages until
the response has empty `data`, a falsy `next_page_search_after`, or a call
raises (the exception is logged and the generator breaks).  The argument
lists the successive outcomes of `search_texts`; a well-formed script ends
in a terminator and an exhausted script yields nothing further. -/
def getAllWorks : List SearchResult → List Work
  | [] => []
  | SearchResult.err :: _ => []
  | SearchResult.page data next :: rest =>
    if data.isEmpty then []
    else data ++ (if next then getAllWorks rest else [])

/-- `BenYehudaAPI.BATCH_SIZE` (line 15). -/
def BATCH_SIZE : Nat := 20

/-- Outcome of one `get_texts_batch` network call made by
`scrape_all_works`: an exception (`err`) or the decoded response list. -/
inductive BatchResult
  | err
  | ok (records : List Work)
deriving DecidableEq, Repr

/-- Coordinator state of `scrape_all_works` (lines 167-247): the
`scraped_ids` list, the works directory as an association list from id to
file content, the `works_buffer`, the log of the argument lists of the
`get_texts_batch` calls made so far, the number of periodic progress-file
writes performed, and the works consumed from `get_all_works` so far. -/
structure ScrapeState where
  scraped : List Nat
  store : List (Nat × String)
  buffer : List Work
  batchCalls : List (List Nat)
  flushes : Nat
  worksConsumed : List Work
deriving DecidableEq, Repr

/-- Writing `work_{i}.json`: records are keyed by id, so a rewrite replaces
any prior content for the same id wholesale. -/
def setRecord (store : List (Nat × String)) (i : Nat) (c : String) : List (Nat × String) :=
  (i, c) :: store.filter (fun p => p.1 != i)

/-- `BenYehudaAPI.save_work` (lines 132-148): a work with a falsy `id` is
skipped with a warning; otherwise the record is written to
`work_{id}.json`, and an exception from the write is caught and logged,
leaving the store unchanged.  `writeOk i` scripts whether the file write
for id `i` succeeds. -/
def save_work (writeOk : Nat → Bool) (store : List (Nat × String)) (w : Work) :
    List (Nat × String) :=
  match w.wid with
  | none => store
  | some i =>
    if i = 0 then store
    else if writeOk i then setRecord store i w.content else store

/-- The ids appended to `scraped_ids` by the persist loop of
`scrape_all_works` over one batch response (lines 206-210 and 229-233):
every record id that is truthy, in response order. -/
def truthyIds (ws : List Work) : List Nat :=
  ws.filterMap (fun w =>
    match w.wid with
    | some i => if i = 0 then none else some i
    | none => none)

/-- One iteration of the persist loop (lines 206-210): `save_work` the
record, then append its `id` to `scraped_ids` when the id is truthy.  The
append happens whether or not the file write succeeded, because
`save_work` swallows write exceptions. -/
def persistOne (writeOk : Nat → Bool) (st : ScrapeState) (w : Work) : ScrapeState :=
  let store := save_work writeOk st.store w
  match w.wid with
  | none => { st with store := store }
  | some i =>
    if i = 0 then { st with store := store }
    else { st with store := store, scraped := st.scraped ++ [i] }

/-- `BenYehudaAPI.process_works_batch` (lines 150-165): keep, in buffer
order, the ids of the buffered works that are truthy and not already in
`scraped_ids`. -/
def process_works_batch : List Work → List Nat → List Nat
  | [], _ => []
  | w :: ws, scraped =>
    (match w.wid with
     | some i => if i ≠ 0 ∧ i ∉ scraped then [i] else []
     | none => []) ++ process_works_batch ws scraped

/-- The in-loop batch block of `scrape_all_works` (lines 196-225): filter
the buffer against `scraped_ids`; when nothing is new, skip the network
call; otherwise call `get_texts_batch` (the outcome of the `k`-th call of
the run is `batchResp k`), persist each returned record on success, write
the progress file when `len(scraped_ids)` is an exact multiple of
`BATCH_SIZE * 2`, and clear the buffer — also after a logged batch
exception. -/
def handleBatch (writeOk : Nat → Bool) (batchResp : Nat → BatchResult)
    (st : ScrapeState) : ScrapeState :=
  let ids := process_works_batch st.buffer st.scraped
  if ids.isEmpty then { st with buffer := [] }
  else
    let st1 := { st with batchCalls := st.batchCalls ++ [ids] }
    match batchResp st.batchCalls.length with
    | BatchResult.err => { st1 with buffer := [] }
    | BatchResult.ok records =>
      let st2 := records.foldl (persistOne writeOk) st1
      let st3 :=
        if st2.scraped.length % (BATCH_SIZE * 2) = 0 then
          { st2 with flushes := st2.flushes + 1 }
        else st2
      { st3 with buffer := [] }

/-- One iteration of the `for work in self.get_all_works()` loop (lines
192-226): append the summary to the buffer, and run the batch block once
the buffer has reached `BATCH_SIZE`. -/
def stepWork (writeOk : Nat → Bool) (batchResp : Nat → BatchResult)
    (st : ScrapeState) (w : Work) : ScrapeState :=
  let st1 := { st with buffer := st.buffer ++ [w], worksConsumed := st.worksConsumed ++ [w] }
  if BATCH_SIZE ≤ st1.buffer.length then handleBatch writeOk batchResp st1 else st1

/-- The main loop of `scrape_all_works` over the works yielded by
`get_all_works`. -/
def scrapeLoop (writeOk : Nat → Bool) (batchResp : Nat → BatchResult) :
    List Work → ScrapeState → ScrapeState
  | [], st => st
  | w :: ws, st => scrapeLoop writeOk batchResp ws (stepWork writeOk batchResp st w)

/-- Lines 227-240: after pagination ends, drain any remaining buffered
works through one final batch pass.  This block has no periodic
progress-file write. -/
def tailBatch (writeOk : Nat → Bool) (batchResp : Nat → BatchResult)
    (st : ScrapeState) : ScrapeState :=
  if st.buffer.isEmpty then st
  else
    let ids := process_works_batch st.buffer st.scraped
    if ids.isEmpty then st
    else
      let st1 := { st with batchCalls := st.batchCalls ++ [ids] }
      match batchResp st.batchCalls.length with
      | BatchResult.err => st1
      | BatchResult.ok records => records.foldl (persistOne writeOk) st1

/-- Observable outcome of one `scrape_all_works` run.  `finalFlush` is the
content of the unconditional progress-file write in the `finally` block
(lines 245-247). -/
structure RunResult where
  scraped : List Nat
  store : List (Nat × String)
  batchCalls : List (List Nat)
  periodicFlushes : Nat
  worksConsumed : List Work
  finalFlush : List Nat
deriving DecidableEq, Repr

/-- Coordinator state at the top of `scrape_all_works`: `scraped_ids` as
loaded from the progress file, the works directory as left by prior runs,
empty buffer, and no calls, flushes or consumed works yet. -/
def initState (init : List Nat) (initStore : List (Nat × String)) : ScrapeState :=
  { scraped := init, store := initStore, buffer := [], batchCalls := [],
    flushes := 0, worksConsumed := [] }

/-- `BenYehudaAPI.scrape_all_works` (lines 167-247): run the main loop over
the pagination output, drain the tail of the buffer, and perform the
unconditional final progress write of the `finally` block. -/
def scrape_all_works (writeOk : Nat → Bool) (batchResp : Nat → BatchResult)
    (init : List Nat) (initStore : List (Nat × String))
    (script : List SearchResult) : RunResult :=
  let st := scrapeLoop writeOk batchResp (getAllWorks script) (initState init initStore)
  let st2 := tailBatch writeOk batchResp st
  { scraped := st2.scraped, store := st2.store, batchCalls := st2.batchCalls,
    periodicFlushes := st2.flushes, worksConsumed := st2.worksConsumed,
    finalFlush := st2.scraped }

/-- A run cut short by `KeyboardInterrupt` observed between loop
iterations, after `k` works were consumed: the remaining works and the
tail drain are skipped, but the `finally` block still writes the progress
file (lines 241-247). -/
def scrape_all_works_interrupted (writeOk : Nat → Bool) (batchResp : Nat → BatchResult)
    (init : List Nat) (initStore : List (Nat × String))
    (script : List SearchResult) (k : Nat) : RunResult :=
  let st := scrapeLoop writeOk batchResp ((getAllWorks script).take k) (initState init initStore)
  { scraped := st.scraped, store := st.store, batchCalls := st.batchCalls,
    periodicFlushes := st.flushes, worksConsumed := st.worksConsumed,
    finalFlush := st.scraped }

/-- The JSON payload that `BenYehudaAPI.get_texts_batch` posts to
`/texts/batch` (lines 45-66), with its hard-coded defaults. -/
structure BatchRequest where
  key : String
  ids : List Nat
  view : String
  file_format : String
  snippet : Bool
deriving DecidableEq, Repr

/-- The client-side error the spec requires for a malformed batch
request. -/
inductive ApiError
  | invalidArgument
deriving DecidableEq, Repr

/-- `BenYehudaAPI.get_texts_batch` (lines 45-66): build the payload and
issue the POST.  The code performs no check on `text_ids`; the `Except`
codomain records that the function has no client-side failure path. -/
def get_texts_batch (key : String) (text_ids : List Nat) : Except ApiError BatchRequest :=
  Except.ok
    { key := key, ids := text_ids, view := "enriched", file_format := "txt", snippet := true }

/-- Modelled from the spec (section 4.2): the batch fetcher must reject an
empty or oversized id set with `InvalidArgument` instead of issuing the
request.  Stated only to be compared with `get_texts_batch`. -/
def fetch_batch_spec (key : String) (text_ids : List Nat) : Except ApiError BatchRequest :=
  if text_ids.isEmpty ∨ BATCH_SIZE < text_ids.length then
    Except.error ApiError.invalidArgument
  else
    Except.ok
      { key := key, ids := text_ids, view := "enriched", file_format := "txt", snippet := true }

/-- The successive values of `work_{id}.json` observable while `save_work`
(lines 132-148) runs, content modelled as a character sequence: `old` is
the file's value before the call (`none` when the file does not exist);
`open(work_file, 'w')` first truncates the file in place, then `json.dump`
streams the serialized record one character at a time. -/
def writeTrace (old : Option (List Char)) (content : List Char) :
    List (Option (List Char)) :=
  old :: some [] :: (List.range content.length).map (fun k => some (content.take (k + 1)))

deriving instance DecidableEq for Except

/-- Python exceptions raised by `BenYehudaDataset.__init__` row parsing
(ben_yehuda_dataset.py, lines 42-47). -/
inductive PyError
  | indexError
  | valueError
deriving DecidableEq, Repr

/-- What happens to one catalogue row that parses without an exception:
skipped by the `if not author_id or not path: continue` guard, or carried
on to the path/sample logic with its parsed author id. -/
inductive RowOutcome
  | skipped
  | proceed (author_id : Int) (path : String)
deriving DecidableEq, Repr

/-- Python `str.split('/')` on a character sequence: `''.split('/')` is
`['']`, and separators at the ends produce empty segments. -/
def pySplit : List Char → List (List Char)
  | [] => [[]]
  | c :: rest =>
    let r := pySplit rest
    if c = '/' then [] :: r
    else
      match r with
      | g :: gs => (c :: g) :: gs
      | [] => [[c]]

/-- Strip leading and trailing whitespace, as Python `str.strip()` and the
whitespace tolerance of `int()` do. -/
def stripWs (cs : List Char) : List Char :=
  ((cs.dropWhile (fun c => c.isWhitespace)).reverse.dropWhile (fun c => c.isWhitespace)).reverse

/-- Accumulate the numeric value of a digit sequence. -/
def digitsVal (cs : List Char) : Nat :=
  cs.foldl (fun a c => a * 10 + (c.toNat - 48)) 0

/-- Python `int(str)` on an already-stripped character sequence: an
optional sign followed by at least one digit; anything else raises
`ValueError` (`none`). -/
def pyIntCore : List Char → Option Int
  | '-' :: rest =>
    if rest ≠ [] ∧ rest.all (fun c => c.isDigit) then some (-(digitsVal rest : Int)) else none
  | '+' :: rest =>
    if rest ≠ [] ∧ rest.all (fun c => c.isDigit) then some ((digitsVal rest : Int)) else none
  | cs =>
    if cs ≠ [] ∧ cs.all (fun c => c.isDigit) then some ((digitsVal cs : Int)) else none

/-- Python `int(str)`: strip surrounding whitespace, then parse. -/
def pyInt (cs : List Char) : Option Int :=
  pyIntCore (stripWs cs)

/-- Python `str.strip()` on a Lean string. -/
def pyStrip (s : String) : String :=
  String.mk (stripWs s.toList)

/-- The body of the `for row in reader` loop of `BenYehudaDataset.__init__`
(lines 44-47), up to and including the guard, for one row's `path` field
(already stripped): evaluate `int(path.split('/')[1][1:])` first — an
out-of-range `[1]` raises `IndexError` and a non-numeric segment raises
`ValueError` — and only then test `if not author_id or not path:
continue`. -/
def processPath (path : String) : Except PyError RowOutcome :=
  match (pySplit path.toList).get? 1 with
  | none => Except.error PyError.indexError
  | some seg =>
    match pyInt (seg.drop 1) with
    | none => Except.error PyError.valueError
    | some a =>
      if a = 0 ∨ path = "" then Except.ok RowOutcome.skipped
      else Except.ok (RowOutcome.proceed a path)

/-- One row of `pseudocatalogue.csv`: `path := row.get('path', '').strip()`
followed by the parse and guard above. -/
def processRow (raw : String) : Except PyError RowOutcome :=
  processPath (pyStrip raw)

/-! ### Structural lemmas about the coordinator -/

theorem truthyIds_nil : truthyIds [] = [] := rfl

theorem truthyIds_cons_none {r : Work} (rs : List Work) (hw : r.wid = none) :
    truthyIds (r :: rs) = truthyIds rs := by
  simp [truthyIds, List.filterMap_cons, hw]

theorem truthyIds_cons_zero {r : Work} (rs : List Work) (hw : r.wid = some 0) :
    truthyIds (r :: rs) = truthyIds rs := by
  simp [truthyIds, List.filterMap_cons, hw]

theorem truthyIds_cons_some {r : Work} {i : Nat} (rs : List Work) (hw : r.wid = some i)
    (hi : i ≠ 0) : truthyIds (r :: rs) = i :: truthyIds rs := by
  simp [truthyIds, List.filterMap_cons, hw, hi]

theorem truthyIds_append (xs ys : List Work) :
    truthyIds (xs ++ ys) = truthyIds xs ++ truthyIds ys := by
  simp [truthyIds, List.filterMap_append]

theorem truthyIds_cons (r : Work) (rs : List Work) :
    truthyIds (r :: rs) = truthyIds [r] ++ truthyIds rs := by
  cases hw : r.wid with
  | none => simp [truthyIds, List.filterMap_cons, hw]
  | some i =>
    by_cases hi : i = 0
    · subst hi; simp [truthyIds, List.filterMap_cons, hw]
    · simp [truthyIds, List.filterMap_cons, hw, hi]

theorem persistOne_scraped (writeOk : Nat → Bool) (st : ScrapeState) (r : Work) :
    (persistOne writeOk st r).scraped = st.scraped ++ truthyIds [r] := by
  cases hw : r.wid with
  | none => simp [persistOne, truthyIds, hw]
  | some i =>
    by_cases hi : i = 0
    · subst hi; simp [persistOne, truthyIds, hw]
    · simp [persistOne, truthyIds, hw, hi]

theorem persistOne_buffer (writeOk : Nat → Bool) (st : ScrapeState) (r : Work) :
    (persistOne writeOk st r).buffer = st.buffer := by
  cases hw : r.wid with
  | none => simp [persistOne, hw]
  | some i => by_cases hi : i = 0 <;> simp [persistOne, hw, hi]

theorem persistOne_batchCalls (writeOk : Nat → Bool) (st : ScrapeState) (r : Work) :
    (persistOne writeOk st r).batchCalls = st.batchCalls := by
  cases hw : r.wid with
  | none => simp [persistOne, hw]
  | some i => by_cases hi : i = 0 <;> simp [persistOne, hw, hi]

theorem persistOne_flushes (writeOk : Nat → Bool) (st : ScrapeState) (r : Work) :
    (persistOne writeOk st r).flushes = st.flushes := by
  cases hw : r.wid with
  | none => simp [persistOne, hw]
  | some i => by_cases hi : i = 0 <;> simp [persistOne, hw, hi]

theorem persistOne_worksConsumed (writeOk : Nat → Bool) (st : ScrapeState) (r : Work) :
    (persistOne writeOk st r).worksConsumed = st.worksConsumed := by
  cases hw : r.wid with
  | none => simp [persistOne, hw]
  | some i => by_cases hi : i = 0 <;> simp [persistOne, hw, hi]

theorem foldl_persistOne_scraped (writeOk : Nat → Bool) :
    ∀ (rs : List Work) (st : ScrapeState),
      (rs.foldl (persistOne writeOk) st).scraped = st.scraped ++ truthyIds rs := by
  intro rs
  induction rs with
  | nil => intro st; simp [truthyIds]
  | cons r rs ih =>
    intro st
    rw [List.foldl_cons, ih, persistOne_scraped, truthyIds_cons r rs, List.append_assoc]

theorem foldl_persistOne_buffer (writeOk : Nat → Bool) :
    ∀ (rs : List Work) (st : ScrapeState),
      (rs.foldl (persistOne writeOk) st).buffer = st.buffer := by
  intro rs
  induction rs with
  | nil => intro st; rfl
  | cons r rs ih => intro st; rw [List.foldl_cons, ih, persistOne_buffer]

theorem foldl_persistOne_batchCalls (writeOk : Nat → Bool) :
    ∀ (rs : List Work) (st : ScrapeState),
      (rs.foldl (persistOne writeOk) st).batchCalls = st.batchCalls := by
  intro rs
  induction rs with
  | nil => intro st; rfl
  | cons r rs ih => intro st; rw [List.foldl_cons, ih, persistOne_batchCalls]

theorem foldl_persistOne_flushes (writeOk : Nat → Bool) :
    ∀ (rs : List Work) (st : ScrapeState),
      (rs.foldl (persistOne writeOk) st).flushes = st.flushes := by
  intro rs
  induction rs with
  | nil => intro st; rfl
  | cons r rs ih => intro st; rw [List.foldl_cons, ih, persistOne_flushes]

theorem foldl_persistOne_worksConsumed (writeOk : Nat → Bool) :
    ∀ (rs : List Work) (st : ScrapeState),
      (rs.foldl (persistOne writeOk) st).worksConsumed = st.worksConsumed := by
  intro rs
  induction rs with
  | nil => intro st; rfl
  | cons r rs ih => intro st; rw [List.foldl_cons, ih, persistOne_worksConsumed]

theorem handleBatch_of_empty (writeOk : Nat → Bool) (batchResp : Nat → BatchResult)
    (st : ScrapeState) (h : process_works_batch st.buffer st.scraped = []) :
    handleBatch writeOk batchResp st = { st with buffer := [] } := by
  unfold handleBatch
  rw [h]
  rfl

theorem handleBatch_buffer (writeOk : Nat → Bool) (batchResp : Nat → BatchResult)
    (st : ScrapeState) : (handleBatch writeOk batchResp st).buffer = [] := by
  by_cases hids : process_works_batch st.buffer st.scraped = []
  · rw [handleBatch_of_empty writeOk batchResp st hids]
  · simp only [handleBatch]
    rw [if_neg (by simp [List.isEmpty_iff, hids])]
    cases h : batchResp st.batchCalls.length with
    | err => rfl
    | ok records => rfl

theorem handleBatch_worksConsumed (writeOk : Nat → Bool) (batchResp : Nat → BatchResult)
    (st : ScrapeState) : (handleBatch writeOk batchResp st).worksConsumed = st.worksConsumed := by
  by_cases hids : process_works_batch st.buffer st.scraped = []
  · rw [handleBatch_of_empty writeOk batchResp st hids]
  · simp only [handleBatch]
    rw [if_neg (by simp [List.isEmpty_iff, hids])]
    cases h : batchResp st.batchCalls.length with
    | err => rfl
    | ok records =>
      show (if _ then _ else _ : ScrapeState).worksConsumed = _
      split <;> simp [foldl_persistOne_worksConsumed]

theorem handleBatch_scraped_cases (writeOk : Nat → Bool) (batchResp : Nat → BatchResult)
    (st : ScrapeState) :
    (handleBatch writeOk batchResp st).scraped = st.scraped ∨
      ∃ recs, batchResp st.batchCalls.length = BatchResult.ok recs ∧
        (handleBatch writeOk batchResp st).scraped = st.scraped ++ truthyIds recs := by
  by_cases hids : process_works_batch st.buffer st.scraped = []
  · left; rw [handleBatch_of_empty writeOk batchResp st hids]
  · have hcond : ¬ ((process_works_batch st.buffer st.scraped).isEmpty = true) := by
      simp [List.isEmpty_iff, hids]
    cases h : batchResp st.batchCalls.length with
    | err =>
      left
      simp only [handleBatch]
      rw [if_neg hcond, h]
    | ok records =>
      right
      refine ⟨records, rfl, ?_⟩
      simp only [handleBatch]
      rw [if_neg hcond, h]
      show (if _ then _ else _ : ScrapeState).scraped = _
      split <;> simp [foldl_persistOne_scraped]

theorem handleBatch_calls_cases (writeOk : Nat → Bool) (batchResp : Nat → BatchResult)
    (st : ScrapeState) :
    (handleBatch writeOk batchResp st).batchCalls = st.batchCalls ∨
      ((handleBatch writeOk batchResp st).batchCalls
          = st.batchCalls ++ [process_works_batch st.buffer st.scraped] ∧
        process_works_batch st.buffer st.scraped ≠ []) := by
  by_cases hids : process_works_batch st.buffer st.scraped = []
  · left; rw [handleBatch_of_empty writeOk batchResp st hids]
  · have hcond : ¬ ((process_works_batch st.buffer st.scraped).isEmpty = true) := by
      simp [List.isEmpty_iff, hids]
    right
    refine ⟨?_, hids⟩
    cases h : batchResp st.batchCalls.length with
    | err =>
      simp only [handleBatch]
      rw [if_neg hcond, h]
    | ok records =>
      simp only [handleBatch]
      rw [if_neg hcond, h]
      show (if _ then _ else _ : ScrapeState).batchCalls = _
      split <;> simp [foldl_persistOne_batchCalls]

theorem handleBatch_flushes_cases (writeOk : Nat → Bool) (batchResp : Nat → BatchResult)
    (st : ScrapeState) :
    (handleBatch writeOk batchResp st).flushes = st.flushes ∨
      (handleBatch writeOk batchResp st).flushes = st.flushes + 1 := by
  by_cases hids : process_works_batch st.buffer st.scraped = []
  · left; rw [handleBatch_of_empty writeOk batchResp st hids]
  · have hcond : ¬ ((process_works_batch st.buffer st.scraped).isEmpty = true) := by
      simp [List.isEmpty_iff, hids]
    cases h : batchResp st.batchCalls.length with
    | err =>
      left
      simp only [handleBatch]
      rw [if_neg hcond, h]
    | ok records =>
      simp only [handleBatch]
      rw [if_neg hcond, h]
      show (if _ then _ else _ : ScrapeState).flushes = _ ∨ _
      split
      · right; simp [*, foldl_persistOne_flushes]
      · left; simp [*, foldl_persistOne_flushes]

theorem stepWork_worksConsumed (writeOk : Nat → Bool) (batchResp : Nat → BatchResult)
    (st : ScrapeState) (w : Work) :
    (stepWork writeOk batchResp st w).worksConsumed = st.worksConsumed ++ [w] := by
  simp only [stepWork]
  split
  · rw [handleBatch_worksConsumed]
  · rfl

theorem stepWork_scraped_cases (writeOk : Nat → Bool) (batchResp : Nat → BatchResult)
    (st : ScrapeState) (w : Work) :
    (stepWork writeOk batchResp st w).scraped = st.scraped ∨
      ∃ k recs, batchResp k = BatchResult.ok recs ∧
        (stepWork writeOk batchResp st w).scraped = st.scraped ++ truthyIds recs := by
  simp only [stepWork]
  split
  · rcases handleBatch_scraped_cases writeOk batchResp
        { st with buffer := st.buffer ++ [w], worksConsumed := st.worksConsumed ++ [w] } with
      h | ⟨recs, hk, h⟩
    · left; exact h
    · right; exact ⟨_, recs, hk, h⟩
  · left; rfl

theorem scrapeLoop_scraped_mem (writeOk : Nat → Bool) (batchResp : Nat → BatchResult) :
    ∀ (ws : List Work) (st : ScrapeState) (i : Nat),
      i ∈ (scrapeLoop writeOk batchResp ws st).scraped →
      i ∈ st.scraped ∨ ∃ k recs, batchResp k = BatchResult.ok recs ∧ i ∈ truthyIds recs := by
  intro ws
  induction ws with
  | nil => intro st i h; exact Or.inl h
  | cons w ws ih =>
    intro st i h
    rcases ih (stepWork writeOk batchResp st w) i h with h1 | h2
    · rcases stepWork_scraped_cases writeOk batchResp st w with hc | ⟨k, recs, hk, hc⟩
      · rw [hc] at h1; exact Or.inl h1
      · rw [hc] at h1
        rcases List.mem_append.mp h1 with h3 | h3
        · exact Or.inl h3
        · exact Or.inr ⟨k, recs, hk, h3⟩
    · exact Or.inr h2

theorem scrapeLoop_worksConsumed (writeOk : Nat → Bool) (batchResp : Nat → BatchResult) :
    ∀ (ws : List Work) (st : ScrapeState),
      (scrapeLoop writeOk batchResp ws st).worksConsumed = st.worksConsumed ++ ws := by
  intro ws
  induction ws with
  | nil => intro st; simp [scrapeLoop]
  | cons w ws ih =>
    intro st
    show (scrapeLoop writeOk batchResp ws (stepWork writeOk batchResp st w)).worksConsumed = _
    rw [ih, stepWork_worksConsumed, List.append_assoc]
    rfl

theorem scrapeLoop_append (writeOk : Nat → Bool) (batchResp : Nat → BatchResult) :
    ∀ (xs ys : List Work) (st : ScrapeState),
      scrapeLoop writeOk batchResp (xs ++ ys) st
        = scrapeLoop writeOk batchResp ys (scrapeLoop writeOk batchResp xs st) := by
  intro xs
  induction xs with
  | nil => intro ys st; rfl
  | cons x xs ih => intro ys st; exact ih ys (stepWork writeOk batchResp st x)

theorem tailBatch_of_empty_buffer (writeOk : Nat → Bool) (batchResp : Nat → BatchResult)
    (st : ScrapeState) (h : st.buffer = []) : tailBatch writeOk batchResp st = st := by
  unfold tailBatch
  rw [h]
  rfl

theorem tailBatch_of_empty_batch (writeOk : Nat → Bool) (batchResp : Nat → BatchResult)
    (st : ScrapeState) (h : process_works_batch st.buffer st.scraped = []) :
    tailBatch writeOk batchResp st = st := by
  unfold tailBatch
  rw [h]
  split <;> rfl

theorem tailBatch_worksConsumed (writeOk : Nat → Bool) (batchResp : Nat → BatchResult)
    (st : ScrapeState) : (tailBatch writeOk batchResp st).worksConsumed = st.worksConsumed := by
  by_cases hb : st.buffer = []
  · rw [tailBatch_of_empty_buffer writeOk batchResp st hb]
  · by_cases hids : process_works_batch st.buffer st.scraped = []
    · rw [tailBatch_of_empty_batch writeOk batchResp st hids]
    · have hcond : ¬ ((process_works_batch st.buffer st.scraped).isEmpty = true) := by
        simp [List.isEmpty_iff, hids]
      have hcondb : ¬ (st.buffer.isEmpty = true) := by simp [List.isEmpty_iff, hb]
      simp only [tailBatch]
      rw [if_neg hcondb, if_neg hcond]
      cases h : batchResp st.batchCalls.length with
      | err => rfl
      | ok records => simp [foldl_persistOne_worksConsumed]

theorem tailBatch_scraped_cases (writeOk : Nat → Bool) (batchResp : Nat → BatchResult)
    (st : ScrapeState) :
    (tailBatch writeOk batchResp st).scraped = st.scraped ∨
      ∃ recs, batchResp st.batchCalls.length = BatchResult.ok recs ∧
        (tailBatch writeOk batchResp st).scraped = st.scraped ++ truthyIds recs := by
  by_cases hb : st.buffer = []
  · left; rw [tailBatch_of_empty_buffer writeOk batchResp st hb]
  · by_cases hids : process_works_batch st.buffer st.scraped = []
    · left; rw [tailBatch_of_empty_batch writeOk batchResp st hids]
    · have hcond : ¬ ((process_works_batch st.buffer st.scraped).isEmpty = true) := by
        simp [List.isEmpty_iff, hids]
      have hcondb : ¬ (st.buffer.isEmpty = true) := by simp [List.isEmpty_iff, hb]
      cases h : batchResp st.batchCalls.length with
      | err =>
        left
        simp only [tailBatch]
        rw [if_neg hcondb, if_neg hcond, h]
      | ok records =>
        right
        refine ⟨records, rfl, ?_⟩
        simp only [tailBatch]
        rw [if_neg hcondb, if_neg hcond, h]
        simp [foldl_persistOne_scraped]

theorem tailBatch_calls_cases (writeOk : Nat → Bool) (batchResp : Nat → BatchResult)
    (st : ScrapeState) :
    (tailBatch writeOk batchResp st).batchCalls = st.batchCalls ∨
      ((tailBatch writeOk batchResp st).batchCalls
          = st.batchCalls ++ [process_works_batch st.buffer st.scraped] ∧
        process_works_batch st.buffer st.scraped ≠ []) := by
  by_cases hb : st.buffer = []
  · left; rw [tailBatch_of_empty_buffer writeOk batchResp st hb]
  · by_cases hids : process_works_batch st.buffer st.scraped = []
    · left; rw [tailBatch_of_empty_batch writeOk batchResp st hids]
    · have hcond : ¬ ((process_works_batch st.buffer st.scraped).isEmpty = true) := by
        simp [List.isEmpty_iff, hids]
      have hcondb : ¬ (st.buffer.isEmpty = true) := by simp [List.isEmpty_iff, hb]
      right
      refine ⟨?_, hids⟩
      cases h : batchResp st.batchCalls.length with
      | err =>
        simp only [tailBatch]
        rw [if_neg hcondb, if_neg hcond, h]
      | ok records =>
        simp only [tailBatch]
        rw [if_neg hcondb, if_neg hcond, h]
        simp [foldl_persistOne_batchCalls]

theorem tailBatch_flushes (writeOk : Nat → Bool) (batchResp : Nat → BatchResult)
    (st : ScrapeState) : (tailBatch writeOk batchResp st).flushes = st.flushes := by
  by_cases hb : st.buffer = []
  · rw [tailBatch_of_empty_buffer writeOk batchResp st hb]
  · by_cases hids : process_works_batch st.buffer st.scraped = []
    · rw [tailBatch_of_empty_batch writeOk batchResp st hids]
    · have hcond : ¬ ((process_works_batch st.buffer st.scraped).isEmpty = true) := by
        simp [List.isEmpty_iff, hids]
      have hcondb : ¬ (st.buffer.isEmpty = true) := by simp [List.isEmpty_iff, hb]
      simp only [tailBatch]
      rw [if_neg hcondb, if_neg hcond]
      cases h : batchResp st.batchCalls.length with
      | err => rfl
      | ok records => simp [foldl_persistOne_flushes]

theorem run_scraped_mem (writeOk : Nat → Bool) (batchResp : Nat → BatchResult)
    (init : List Nat) (initStore : List (Nat × String)) (script : List SearchResult) (i : Nat)
    (h : i ∈ (scrape_all_works writeOk batchResp init initStore script).scraped) :
    i ∈ init ∨ ∃ k recs, batchResp k = BatchResult.ok recs ∧ i ∈ truthyIds recs := by
  have h2 : i ∈ (tailBatch writeOk batchResp
      (scrapeLoop writeOk batchResp (getAllWorks script) (initState init initStore))).scraped := h
  rcases tailBatch_scraped_cases writeOk batchResp
      (scrapeLoop writeOk batchResp (getAllWorks script) (initState init initStore)) with
    hc | ⟨recs, hk, hc⟩
  · rw [hc] at h2
    exact scrapeLoop_scraped_mem writeOk batchResp (getAllWorks script) (initState init initStore) i h2
  · rw [hc] at h2
    rcases List.mem_append.mp h2 with h3 | h3
    · exact scrapeLoop_scraped_mem writeOk batchResp (getAllWorks script) (initState init initStore) i h3
    · exact Or.inr ⟨_, recs, hk, h3⟩

theorem process_works_batch_length :
    ∀ (ws : List Work) (s : List Nat), (process_works_batch ws s).length ≤ ws.length := by
  intro ws
  induction ws with
  | nil => intro s; simp [process_works_batch]
  | cons w ws ih =>
    intro s
    have h := ih s
    unfold process_works_batch
    cases hw : w.wid with
    | none => simp only [hw, List.length_append, List.length_cons]; simp; omega
    | some i =>
      simp only [hw, List.length_append, List.length_cons]
      by_cases hcond : i ≠ 0 ∧ i ∉ s
      · rw [if_pos hcond]; simp; omega
      · rw [if_neg hcond]; simp; omega

/-- The invariant the coordinator maintains on the logged batch-call
arguments: every call carries at least one id and at most `BATCH_SIZE`. -/
def CallsOK (l : List (List Nat)) : Prop :=
  ∀ c ∈ l, 0 < c.length ∧ c.length ≤ BATCH_SIZE

theorem callsOK_append (l : List (List Nat)) (c : List Nat) (h : CallsOK l)
    (h1 : 0 < c.length) (h2 : c.length ≤ BATCH_SIZE) : CallsOK (l ++ [c]) := by
  intro d hd
  rcases List.mem_append.mp hd with h3 | h3
  · exact h d h3
  · rw [List.mem_singleton.mp h3]
    exact ⟨h1, h2⟩

theorem stepWork_callsOK (writeOk : Nat → Bool) (batchResp : Nat → BatchResult)
    (st : ScrapeState) (w : Work) (hc : CallsOK st.batchCalls)
    (hb : st.buffer.length < BATCH_SIZE) :
    CallsOK (stepWork writeOk batchResp st w).batchCalls ∧
      (stepWork writeOk batchResp st w).buffer.length < BATCH_SIZE := by
  simp only [stepWork]
  split
  · constructor
    · rcases handleBatch_calls_cases writeOk batchResp
          { st with buffer := st.buffer ++ [w], worksConsumed := st.worksConsumed ++ [w] } with
        h | ⟨h, hne⟩
      · rw [h]; exact hc
      · rw [h]
        apply callsOK_append _ _ hc
        · exact List.length_pos.mpr hne
        · calc (process_works_batch (st.buffer ++ [w]) st.scraped).length
              ≤ (st.buffer ++ [w]).length := process_works_batch_length _ _
            _ ≤ BATCH_SIZE := by simp; omega
    · rw [handleBatch_buffer]
      decide
  · constructor
    · exact hc
    · rename_i hlt
      simp at hlt ⊢
      omega

theorem scrapeLoop_callsOK (writeOk : Nat → Bool) (batchResp : Nat → BatchResult) :
    ∀ (ws : List Work) (st : ScrapeState), CallsOK st.batchCalls →
      st.buffer.length < BATCH_SIZE →
      CallsOK (scrapeLoop writeOk batchResp ws st).batchCalls ∧
        (scrapeLoop writeOk batchResp ws st).buffer.length < BATCH_SIZE := by
  intro ws
  induction ws with
  | nil => intro st hc hb; exact ⟨hc, hb⟩
  | cons w ws ih =>
    intro st hc hb
    obtain ⟨hc1, hb1⟩ := stepWork_callsOK writeOk batchResp st w hc hb
    exact ih (stepWork writeOk batchResp st w) hc1 hb1

theorem tailBatch_callsOK (writeOk : Nat → Bool) (batchResp : Nat → BatchResult)
    (st : ScrapeState) (hc : CallsOK st.batchCalls) (hb : st.buffer.length < BATCH_SIZE) :
    CallsOK (tailBatch writeOk batchResp st).batchCalls := by
  rcases tailBatch_calls_cases writeOk batchResp st with h | ⟨h, hne⟩
  · rw [h]; exact hc
  · rw [h]
    apply callsOK_append _ _ hc
    · exact List.length_pos.mpr hne
    · calc (process_works_batch st.buffer st.scraped).length
          ≤ st.buffer.length := process_works_batch_length _ _
        _ ≤ BATCH_SIZE := Nat.le_of_lt hb

theorem process_works_batch_eq_nil :
    ∀ (ws : List Work) (s : List Nat), (∀ i ∈ truthyIds ws, i ∈ s) →
      process_works_batch ws s = [] := by
  intro ws
  induction ws with
  | nil => intro s h; rfl
  | cons w ws ih =>
    intro s h
    unfold process_works_batch
    cases hw : w.wid with
    | none =>
      simp only [hw, List.nil_append]
      exact ih s (fun i hi => h i (by rw [truthyIds_cons_none ws hw]; exact hi))
    | some i =>
      by_cases hi0 : i = 0
      · subst hi0
        simp only [hw]
        have : ¬ ((0 : Nat) ≠ 0 ∧ (0 : Nat) ∉ s) := by simp
        rw [if_neg this, List.nil_append]
        exact ih s (fun i hi => h i (by rw [truthyIds_cons_zero ws hw]; exact hi))
      · have hmem : i ∈ s := h i (by rw [truthyIds_cons_some ws hw hi0]; exact List.mem_cons_self i _)
        simp only [hw]
        have : ¬ (i ≠ 0 ∧ i ∉ s) := by simp [hmem]
        rw [if_neg this, List.nil_append]
        exact ih s (fun j hj => h j (by rw [truthyIds_cons_some ws hw hi0]; exact List.mem_cons_of_mem i hj))

theorem process_works_batch_fresh :
    ∀ (ws : List Work) (s : List Nat), (∀ i ∈ truthyIds ws, i ∉ s) →
      process_works_batch ws s = truthyIds ws := by
  intro ws
  induction ws with
  | nil => intro s h; rfl
  | cons w ws ih =>
    intro s h
    unfold process_works_batch
    cases hw : w.wid with
    | none =>
      simp only [hw, List.nil_append]
      rw [truthyIds_cons_none ws hw]
      exact ih s (fun i hi => h i (by rw [truthyIds_cons_none ws hw]; exact hi))
    | some i =>
      by_cases hi0 : i = 0
      · subst hi0
        simp only [hw]
        have : ¬ ((0 : Nat) ≠ 0 ∧ (0 : Nat) ∉ s) := by simp
        rw [if_neg this, List.nil_append, truthyIds_cons_zero ws hw]
        exact ih s (fun i hi => h i (by rw [truthyIds_cons_zero ws hw]; exact hi))
      · have hmem : i ∉ s := h i (by rw [truthyIds_cons_some ws hw hi0]; exact List.mem_cons_self i _)
        simp only [hw]
        rw [if_pos ⟨hi0, hmem⟩, truthyIds_cons_some ws hw hi0]
        rw [ih s (fun j hj => h j (by rw [truthyIds_cons_some ws hw hi0]; exact List.mem_cons_of_mem i hj))]
        rfl

theorem stepWork_covered (writeOk : Nat → Bool) (batchResp : Nat → BatchResult)
    (st : ScrapeState) (w : Work) (init : List Nat)
    (hs : st.scraped = init)
    (hcov : ∀ i ∈ truthyIds (st.buffer ++ [w]), i ∈ init) :
    ∃ b, stepWork writeOk batchResp st w
        = { st with buffer := b, worksConsumed := st.worksConsumed ++ [w] } ∧
      (∀ i ∈ truthyIds b, i ∈ init) := by
  simp only [stepWork]
  split
  · refine ⟨[], ?_, by simp [truthyIds]⟩
    rw [handleBatch_of_empty]
    apply process_works_batch_eq_nil
    intro i hi
    rw [hs.symm] at hcov
    exact hcov i hi
  · exact ⟨st.buffer ++ [w], rfl, hcov⟩

theorem scrapeLoop_covered (writeOk : Nat → Bool) (batchResp : Nat → BatchResult)
    (init : List Nat) :
    ∀ (ws : List Work) (st : ScrapeState),
      (∀ i ∈ truthyIds ws, i ∈ init) →
      st.scraped = init → st.batchCalls = [] → st.flushes = 0 → st.store = st.store →
      (∀ i ∈ truthyIds st.buffer, i ∈ init) →
      (scrapeLoop writeOk batchResp ws st).scraped = init ∧
        (scrapeLoop writeOk batchResp ws st).batchCalls = [] ∧
        (∀ i ∈ truthyIds (scrapeLoop writeOk batchResp ws st).buffer, i ∈ init) := by
  intro ws
  induction ws with
  | nil => intro st h hs hc hf hst hb; exact ⟨hs, hc, hb⟩
  | cons w ws ih =>
    intro st h hs hc hf hst hb
    have hcov : ∀ i ∈ truthyIds (st.buffer ++ [w]), i ∈ init := by
      intro i hi
      rw [truthyIds_append] at hi
      rcases List.mem_append.mp hi with h1 | h1
      · exact hb i h1
      · exact h i (by rw [truthyIds_cons w ws]; exact List.mem_append.mpr (Or.inl h1))
    obtain ⟨b, hstep, hbcov⟩ := stepWork_covered writeOk batchResp st w init hs hcov
    simp only [scrapeLoop]
    rw [hstep]
    exact ih { st with buffer := b, worksConsumed := st.worksConsumed ++ [w] }
      (fun i hi => h i (by rw [truthyIds_cons w ws]; exact List.mem_append.mpr (Or.inr hi)))
      hs hc hf rfl hbcov

theorem stepWork_small (writeOk : Nat → Bool) (batchResp : Nat → BatchResult)
    (st : ScrapeState) (w : Work) (h : st.buffer.length + 1 < BATCH_SIZE) :
    stepWork writeOk batchResp st w
      = { st with buffer := st.buffer ++ [w], worksConsumed := st.worksConsumed ++ [w] } := by
  simp only [stepWork]
  rw [if_neg (show ¬ (BATCH_SIZE ≤ (st.buffer ++ [w]).length) by simp; omega)]

theorem stepWork_full (writeOk : Nat → Bool) (batchResp : Nat → BatchResult)
    (st : ScrapeState) (w : Work) (h : st.buffer.length + 1 = BATCH_SIZE) :
    stepWork writeOk batchResp st w
      = handleBatch writeOk batchResp
          { st with buffer := st.buffer ++ [w], worksConsumed := st.worksConsumed ++ [w] } := by
  simp only [stepWork]
  rw [if_pos (show BATCH_SIZE ≤ (st.buffer ++ [w]).length by simp; omega)]

theorem scrapeLoop_fill (writeOk : Nat → Bool) (batchResp : Nat → BatchResult) :
    ∀ (ws : List Work) (st : ScrapeState), ws ≠ [] →
      st.buffer.length + ws.length = BATCH_SIZE →
      scrapeLoop writeOk batchResp ws st
        = handleBatch writeOk batchResp
            { st with buffer := st.buffer ++ ws, worksConsumed := st.worksConsumed ++ ws } := by
  intro ws
  induction ws with
  | nil => intro st h; exact absurd rfl h
  | cons w ws ih =>
    intro st hne hlen
    cases ws with
    | nil =>
      have h1 : scrapeLoop writeOk batchResp [w] st = stepWork writeOk batchResp st w := rfl
      rw [h1, stepWork_full writeOk batchResp st w (by simp at hlen; omega)]
    | cons w2 ws2 =>
      have h1 : scrapeLoop writeOk batchResp (w :: w2 :: ws2) st
          = scrapeLoop writeOk batchResp (w2 :: ws2) (stepWork writeOk batchResp st w) := rfl
      rw [h1, stepWork_small writeOk batchResp st w (by simp at hlen ⊢; omega)]
      rw [ih { st with buffer := st.buffer ++ [w], worksConsumed := st.worksConsumed ++ [w] }
          (by simp) (by simp at hlen ⊢; omega)]
      simp [List.append_assoc]

theorem handleBatch_fresh_ok (writeOk : Nat → Bool) (batchResp : Nat → BatchResult)
    (st : ScrapeState) (recs : List Work)
    (hfresh : ∀ i ∈ truthyIds st.buffer, i ∉ st.scraped)
    (hne : truthyIds st.buffer ≠ [])
    (hok : batchResp st.batchCalls.length = BatchResult.ok recs) :
    (handleBatch writeOk batchResp st).scraped = st.scraped ++ truthyIds recs ∧
    (handleBatch writeOk batchResp st).buffer = [] ∧
    (handleBatch writeOk batchResp st).batchCalls = st.batchCalls ++ [truthyIds st.buffer] ∧
    (handleBatch writeOk batchResp st).flushes
      = (if (st.scraped ++ truthyIds recs).length % (BATCH_SIZE * 2) = 0 then st.flushes + 1
          else st.flushes) ∧
    (handleBatch writeOk batchResp st).worksConsumed = st.worksConsumed := by
  have hids : process_works_batch st.buffer st.scraped = truthyIds st.buffer :=
    process_works_batch_fresh st.buffer st.scraped hfresh
  have hcond : ¬ ((process_works_batch st.buffer st.scraped).isEmpty = true) := by
    simp [List.isEmpty_iff, hids, hne]
  simp only [handleBatch]
  rw [if_neg hcond, hok, hids]
  refine ⟨?_, ?_, ?_, ?_, ?_⟩
  · show (if _ then _ else _ : ScrapeState).scraped = _
    split <;> simp [foldl_persistOne_scraped]
  · rfl
  · show (if _ then _ else _ : ScrapeState).batchCalls = _
    split <;> simp [foldl_persistOne_batchCalls]
  · show (if _ then _ else _ : ScrapeState).flushes = _
    rw [show (List.foldl (persistOne writeOk)
        { st with batchCalls := st.batchCalls ++ [truthyIds st.buffer] } recs).scraped
        = st.scraped ++ truthyIds recs by simp [foldl_persistOne_scraped]]
    split
    · simp [foldl_persistOne_flushes, *]
    · simp [foldl_persistOne_flushes, *]
  · show (if _ then _ else _ : ScrapeState).worksConsumed = _
    split <;> simp [foldl_persistOne_worksConsumed]

/-! ### Claim C6: a run family with many completions and no periodic flush -/

/-- One constant catalogue page of `BATCH_SIZE` summaries with even,
never-checkpointed ids. -/
def c6Page : List Work :=
  [⟨some 2, ""⟩, ⟨some 4, ""⟩, ⟨some 6, ""⟩, ⟨some 8, ""⟩, ⟨some 10, ""⟩,
   ⟨some 12, ""⟩, ⟨some 14, ""⟩, ⟨some 16, ""⟩, ⟨some 18, ""⟩, ⟨some 20, ""⟩,
   ⟨some 22, ""⟩, ⟨some 24, ""⟩, ⟨some 26, ""⟩, ⟨some 28, ""⟩, ⟨some 30, ""⟩,
   ⟨some 32, ""⟩, ⟨some 34, ""⟩, ⟨some 36, ""⟩, ⟨some 38, ""⟩, ⟨some 40, ""⟩]

/-- Every batch response returns the same two records with odd ids (the
coordinator appends response ids without de-duplication, so the checkpoint
list grows by exactly two per successful batch). -/
def c6Resp : Nat → BatchResult := fun _ => BatchResult.ok [⟨some 1, ""⟩, ⟨some 3, ""⟩]

/-- `n` identical full pages followed by an end-of-stream response. -/
def c6Script : Nat → List SearchResult
  | 0 => [SearchResult.page [] true]
  | n + 1 => SearchResult.page c6Page true :: c6Script n

/-- The run of `scrape_all_works` over `c6Script n`, starting from a
progress file holding the single id `5`. -/
def c6Run (n : Nat) : RunResult :=
  scrape_all_works (fun _ => true) c6Resp [5] [] (c6Script n)

theorem getAllWorks_c6Script (n : Nat) :
    getAllWorks (c6Script (n + 1)) = c6Page ++ getAllWorks (c6Script n) := rfl

theorem c6_page_step (st : ScrapeState) (hb : st.buffer = [])
    (hlen : st.scraped.length % 2 = 1) (hodd : ∀ i ∈ st.scraped, i % 2 = 1) :
    (scrapeLoop (fun _ => true) c6Resp c6Page st).scraped = st.scraped ++ [1, 3] ∧
    (scrapeLoop (fun _ => true) c6Resp c6Page st).buffer = [] ∧
    (scrapeLoop (fun _ => true) c6Resp c6Page st).flushes = st.flushes := by
  obtain ⟨sc, sto, buf, bc, fl, wc⟩ := st
  replace hb : buf = [] := hb
  subst hb
  replace hlen : sc.length % 2 = 1 := hlen
  replace hodd : ∀ i ∈ sc, i % 2 = 1 := hodd
  have hfill := scrapeLoop_fill (fun _ => true) c6Resp c6Page
    ⟨sc, sto, [], bc, fl, wc⟩ (by decide) rfl
  rw [hfill]
  have hfresh : ∀ i ∈ truthyIds (([] : List Work) ++ c6Page), i ∉ sc := by
    intro i hi hmem
    have heven : i % 2 = 0 := by
      have hall : ∀ j ∈ truthyIds (([] : List Work) ++ c6Page), j % 2 = 0 := by decide
      exact hall i hi
    have hoddi : i % 2 = 1 := hodd i hmem
    omega
  obtain ⟨h1, h2, h3, h4, h5⟩ := handleBatch_fresh_ok (fun _ => true) c6Resp
    ⟨sc, sto, [] ++ c6Page, bc, fl, wc ++ c6Page⟩
    [⟨some 1, ""⟩, ⟨some 3, ""⟩] hfresh
    (show truthyIds (([] : List Work) ++ c6Page) ≠ [] by decide) rfl
  have htr : truthyIds [(⟨some 1, ""⟩ : Work), ⟨some 3, ""⟩] = [1, 3] := rfl
  rw [htr] at h1 h4
  refine ⟨h1, h2, ?_⟩
  dsimp only at h4 ⊢
  have hcond : ¬ ((sc ++ [1, 3]).length % (BATCH_SIZE * 2) = 0) := by
    rw [List.length_append]
    have h40 : BATCH_SIZE * 2 = 40 := rfl
    have hl2 : ([1, 3] : List Nat).length = 2 := rfl
    rw [h40, hl2]
    omega
  rw [h4, if_neg hcond]

theorem c6_loop (n : Nat) :
    ∀ st : ScrapeState, st.buffer = [] → st.scraped.length % 2 = 1 →
      (∀ i ∈ st.scraped, i % 2 = 1) →
      (scrapeLoop (fun _ => true) c6Resp (getAllWorks (c6Script n)) st).buffer = [] ∧
      (scrapeLoop (fun _ => true) c6Resp (getAllWorks (c6Script n)) st).flushes = st.flushes ∧
      (scrapeLoop (fun _ => true) c6Resp (getAllWorks (c6Script n)) st).scraped.length
        = st.scraped.length + 2 * n ∧
      (∀ i ∈ (scrapeLoop (fun _ => true) c6Resp (getAllWorks (c6Script n)) st).scraped,
        i % 2 = 1) := by
  induction n with
  | zero =>
    intro st hb hl ho
    refine ⟨hb, rfl, ?_, ho⟩
    show st.scraped.length = st.scraped.length + 2 * 0
    omega
  | succ n ih =>
    intro st hb hl ho
    rw [getAllWorks_c6Script, scrapeLoop_append]
    obtain ⟨h1, h2, h3⟩ := c6_page_step st hb hl ho
    have hb2 := h2
    have hl2 : (scrapeLoop (fun _ => true) c6Resp c6Page st).scraped.length % 2 = 1 := by
      rw [h1, List.length_append]
      have : ([1, 3] : List Nat).length = 2 := rfl
      rw [this]
      omega
    have ho2 : ∀ i ∈ (scrapeLoop (fun _ => true) c6Resp c6Page st).scraped, i % 2 = 1 := by
      rw [h1]
      intro i hi
      rcases List.mem_append.mp hi with h4 | h4
      · exact ho i h4
      · rcases List.mem_cons.mp h4 with h5 | h5
        · omega
        · rcases List.mem_singleton.mp h5 with h6
          omega
    obtain ⟨g1, g2, g3, g4⟩ := ih (scrapeLoop (fun _ => true) c6Resp c6Page st) hb2 hl2 ho2
    refine ⟨g1, by rw [g2, h3], ?_, g4⟩
    rw [g3, h1, List.length_append]
    have : ([1, 3] : List Nat).length = 2 := rfl
    rw [this]
    omega

theorem c6_run_spec (n : Nat) :
    (c6Run n).periodicFlushes = 0 ∧ (c6Run n).scraped.length = 2 * n + 1 ∧
      (c6Run n).finalFlush = (c6Run n).scraped := by
  obtain ⟨h1, h2, h3, h4⟩ := c6_loop n (initState [5] []) rfl (by decide) (by decide)
  have htail := tailBatch_of_empty_buffer (fun _ => true) c6Resp
    (scrapeLoop (fun _ => true) c6Resp (getAllWorks (c6Script n)) (initState [5] [])) h1
  refine ⟨?_, ?_, rfl⟩
  · show (tailBatch (fun _ => true) c6Resp
        (scrapeLoop (fun _ => true) c6Resp (getAllWorks (c6Script n)) (initState [5] []))).flushes
          = 0
    rw [htail]
    exact h2
  · show (tailBatch (fun _ => true) c6Resp
        (scrapeLoop (fun _ => true) c6Resp (getAllWorks (c6Script n)) (initState [5] []))).scraped.length
          = 2 * n + 1
    rw [htail, h3]
    show 1 + 2 * n = 2 * n + 1
    omega

theorem getAllWorks_err_cut :
    ∀ (s rest : List SearchResult),
      getAllWorks (s ++ SearchResult.err :: rest) = getAllWorks (s ++ [SearchResult.err]) := by
  intro s
  induction s with
  | nil => intro rest; rfl
  | cons hd tl ih =>
    intro rest
    cases hd with
    | err => rfl
    | page data next =>
      simp only [List.cons_append, getAllWorks, List.append_eq]
      rw [ih rest]

theorem writeTrace_getLast (old : Option (List Char)) (c : List Char) :
    (writeTrace old c).getLast? = some (some c) := by
  cases hn : c.length with
  | zero =>
    have hc : c = [] := List.length_eq_zero.mp hn
    subst hc
    rfl
  | succ m =>
    unfold writeTrace
    rw [hn, List.range_succ, List.map_append]
    simp only [List.map_cons, List.map_nil]
    rw [show (old :: some [] ::
          ((List.range m).map (fun k => some (c.take (k + 1)))
            ++ [some (c.take (m + 1))]))
        = ((old :: some [] :: (List.range m).map (fun k => some (c.take (k + 1))))
            ++ [some (c.take (m + 1))]) by simp]
    rw [List.getLast?_concat]
    rw [show m + 1 = c.length from hn.symm, List.take_length]

theorem run_worksConsumed (writeOk : Nat → Bool) (batchResp : Nat → BatchResult)
    (init : List Nat) (initStore : List (Nat × String)) (script : List SearchResult) :
    (scrape_all_works writeOk batchResp init initStore script).worksConsumed
      = getAllWorks script := by
  show (tailBatch writeOk batchResp
      (scrapeLoop writeOk batchResp (getAllWorks script) (initState init initStore))).worksConsumed
    = getAllWorks script
  rw [tailBatch_worksConsumed, scrapeLoop_worksConsumed]
  exact List.nil_append _

/-! ### The claims -/

/-- Run exhibiting the C1 divergence: the catalogue yields one work with id
`7`, the batch response returns its record, but the file write for id `7`
raises (`writeOk 7 = false`, e.g. a full disk); `save_work` swallows the
exception. -/
def c1Resp : Nat → BatchResult := fun _ => BatchResult.ok [⟨some 7, "full"⟩]

def c1Run : RunResult :=
  scrape_all_works (fun _ => false) c1Resp [] [] [SearchResult.page [⟨some 7, "m"⟩] false]

/-- Claim C1 (code bug): the checkpoint-subset invariant fails on the code.
In `c1Run` the write of `work_7.json` raises, `save_work` catches and logs
it, yet the coordinator still appends `7` to `scraped_ids` and flushes it,
so `is_done(7)` holds while no record for `7` exists in the store. -/
theorem claim_c1_checkpoint_ahead_of_store :
    7 ∈ c1Run.scraped ∧ c1Run.finalFlush = [7] ∧ c1Run.store = [] ∧
      c1Run.store.lookup 7 = none := by
  refine ⟨by decide, by decide, by decide, by decide⟩

/-- Run refuting C2 as stated: page one yields three works, the second
`search_texts` call raises.  The batch endpoint would return all three
records. -/
def c2Resp : Nat → BatchResult :=
  fun _ => BatchResult.ok [⟨some 1, "A"⟩, ⟨some 2, "B"⟩, ⟨some 3, "C"⟩]

def c2Run : RunResult :=
  scrape_all_works (fun _ => true) c2Resp [] []
    [SearchResult.page [⟨some 1, "a"⟩, ⟨some 2, "b"⟩, ⟨some 3, "c"⟩] true, SearchResult.err]

/-- Claim C2 counterexample: in `c2Run` the second page fetch raises, yet
the coordinator still performs one batch fetch for the three buffered ids
and persists their records (the tail drain runs after the page error), so
a page-level fetch error does not abort the run nor stop further fetching
and persisting. -/
theorem claim_c2_counterexample :
    c2Run.batchCalls = [[1, 2, 3]] ∧ c2Run.scraped = [1, 2, 3] ∧
      c2Run.store.lookup 1 = some "A" ∧
      getAllWorks [SearchResult.page [⟨some 1, "a"⟩, ⟨some 2, "b"⟩, ⟨some 3, "c"⟩] true,
        SearchResult.err] = [⟨some 1, "a"⟩, ⟨some 2, "b"⟩, ⟨some 3, "c"⟩] := by
  refine ⟨by decide, by decide, by decide, by decide⟩

/-- Claim C2 (amended): a page-level fetch failure ends pagination — the
run is identical to one whose response script stops at the error, so no
later page is consumed — but the run does not abort: it still consumes
every work yielded before the failure, drains them through the batch path,
and performs the final checkpoint flush. -/
theorem claim_c2_page_error_ends_pagination (writeOk : Nat → Bool)
    (batchResp : Nat → BatchResult) (init : List Nat) (initStore : List (Nat × String))
    (s rest : List SearchResult) :
    scrape_all_works writeOk batchResp init initStore (s ++ SearchResult.err :: rest)
      = scrape_all_works writeOk batchResp init initStore (s ++ [SearchResult.err]) ∧
    (scrape_all_works writeOk batchResp init initStore (s ++ SearchResult.err :: rest)).worksConsumed
      = getAllWorks (s ++ SearchResult.err :: rest) ∧
    (scrape_all_works writeOk batchResp init initStore (s ++ SearchResult.err :: rest)).finalFlush
      = (scrape_all_works writeOk batchResp init initStore (s ++ SearchResult.err :: rest)).scraped := by
  refine ⟨?_, run_worksConsumed writeOk batchResp init initStore _, rfl⟩
  unfold scrape_all_works
  rw [getAllWorks_err_cut]

/-- Claim C3 (confirmed): if every truthy id yielded by pagination is
already in the loaded checkpoint set, the run performs zero batch-fetch
calls — every buffered page filters to an empty id set and is discarded
without a network call — and the checkpoint is unchanged. -/
theorem claim_c3_idempotent_reharvest (writeOk : Nat → Bool) (batchResp : Nat → BatchResult)
    (init : List Nat) (initStore : List (Nat × String)) (script : List SearchResult)
    (h : ∀ i ∈ truthyIds (getAllWorks script), i ∈ init) :
    (scrape_all_works writeOk batchResp init initStore script).batchCalls = [] ∧
    (scrape_all_works writeOk batchResp init initStore script).scraped = init := by
  obtain ⟨hs, hc, hb⟩ := scrapeLoop_covered writeOk batchResp init (getAllWorks script)
    (initState init initStore) h rfl rfl rfl rfl (by intro i hi; cases hi)
  have hnil : process_works_batch
      (scrapeLoop writeOk batchResp (getAllWorks script) (initState init initStore)).buffer
      (scrapeLoop writeOk batchResp (getAllWorks script) (initState init initStore)).scraped
        = [] := by
    apply process_works_batch_eq_nil
    rw [hs]
    exact hb
  have htail := tailBatch_of_empty_batch writeOk batchResp
    (scrapeLoop writeOk batchResp (getAllWorks script) (initState init initStore)) hnil
  constructor
  · show (tailBatch writeOk batchResp
        (scrapeLoop writeOk batchResp (getAllWorks script) (initState init initStore))).batchCalls
      = []
    rw [htail]
    exact hc
  · show (tailBatch writeOk batchResp
        (scrapeLoop writeOk batchResp (getAllWorks script) (initState init initStore))).scraped
      = init
    rw [htail]
    exact hs

/-- A second run over an unchanged one-work catalogue whose only id `1` is
already checkpointed. -/
def c3Run : RunResult :=
  scrape_all_works (fun _ => true) (fun _ => BatchResult.ok []) [1] []
    [SearchResult.page [⟨some 1, "a"⟩] false]

theorem claim_c3_witness : c3Run.batchCalls = [] ∧ c3Run.scraped = [1] :=
  claim_c3_idempotent_reharvest (fun _ => true) (fun _ => BatchResult.ok []) [1] []
    [SearchResult.page [⟨some 1, "a"⟩] false] (by decide)

/-- Claim C4 (confirmed): an id `i` that was requested in some batch call
but is absent (as a record id) from every successful batch response is
never appended to `scraped_ids`, and — being truthy and unscraped — it is
again produced by the `process_works_batch` filter of a later run that
paginates it. -/
theorem claim_c4_partial_batch_tolerance (writeOk : Nat → Bool) (batchResp : Nat → BatchResult)
    (init : List Nat) (initStore : List (Nat × String)) (script : List SearchResult)
    (j i : Nat) (c : String)
    (hj : j < (scrape_all_works writeOk batchResp init initStore script).batchCalls.length)
    (hreq : i ∈ (scrape_all_works writeOk batchResp init initStore script).batchCalls.get ⟨j, hj⟩)
    (h0 : i ∉ init)
    (habs : ∀ k recs, batchResp k = BatchResult.ok recs → i ∉ truthyIds recs) :
    i ∉ (scrape_all_works writeOk batchResp init initStore script).scraped ∧
      (i ≠ 0 →
        process_works_batch [⟨some i, c⟩]
          (scrape_all_works writeOk batchResp init initStore script).scraped = [i]) := by
  have hnot : i ∉ (scrape_all_works writeOk batchResp init initStore script).scraped := by
    intro hmem
    rcases run_scraped_mem writeOk batchResp init initStore script i hmem with
      h1 | ⟨k, recs, hk, h2⟩
    · exact h0 h1
    · exact habs k recs hk h2
  refine ⟨hnot, ?_⟩
  intro hi0
  simp [process_works_batch, hi0, hnot]

/-- Run for the C4 witness: three works are requested in one batch, the
response omits id `3`. -/
def c4Resp : Nat → BatchResult := fun _ => BatchResult.ok [⟨some 1, "A"⟩, ⟨some 2, "B"⟩]

def c4Run : RunResult :=
  scrape_all_works (fun _ => true) c4Resp [] []
    [SearchResult.page [⟨some 1, "a"⟩, ⟨some 2, "b"⟩, ⟨some 3, "c"⟩] false]

theorem claim_c4_witness :
    3 ∉ c4Run.scraped ∧ process_works_batch [⟨some 3, "x"⟩] c4Run.scraped = [3] := by
  have h := claim_c4_partial_batch_tolerance (fun _ => true) c4Resp [] []
    [SearchResult.page [⟨some 1, "a"⟩, ⟨some 2, "b"⟩, ⟨some 3, "c"⟩] false] 0 3 "x"
    (by decide) (by decide) (by decide)
    (by
      intro k recs hk
      injection hk with h2
      rw [← h2]
      decide)
  exact ⟨h.1, h.2 (by decide)⟩

/-- Claim C5 (confirmed): when the `k`-th batch fetch raises, no id of that
batch enters `scraped_ids` (unless some successful response carries it),
and the run does not abort: the coordinator still consumes the entire
pagination output and performs the final checkpoint flush. -/
theorem claim_c5_batch_error_nonfatal (writeOk : Nat → Bool) (batchResp : Nat → BatchResult)
    (init : List Nat) (initStore : List (Nat × String)) (script : List SearchResult)
    (k i : Nat)
    (hk : k < (scrape_all_works writeOk batchResp init initStore script).batchCalls.length)
    (herr : batchResp k = BatchResult.err)
    (hi : i ∈ (scrape_all_works writeOk batchResp init initStore script).batchCalls.get ⟨k, hk⟩)
    (h0 : i ∉ init)
    (habs : ∀ j recs, batchResp j = BatchResult.ok recs → i ∉ truthyIds recs) :
    i ∉ (scrape_all_works writeOk batchResp init initStore script).scraped ∧
    (scrape_all_works writeOk batchResp init initStore script).worksConsumed
      = getAllWorks script ∧
    (scrape_all_works writeOk batchResp init initStore script).finalFlush
      = (scrape_all_works writeOk batchResp init initStore script).scraped := by
  refine ⟨?_, run_worksConsumed writeOk batchResp init initStore script, rfl⟩
  intro hmem
  rcases run_scraped_mem writeOk batchResp init initStore script i hmem with
    h1 | ⟨j, recs, hj, h2⟩
  · exact h0 h1
  · exact habs j recs hj h2

/-- Run for the C5 witness: one work is buffered, its tail batch fetch
raises. -/
def c5Resp : Nat → BatchResult := fun _ => BatchResult.err

def c5Run : RunResult :=
  scrape_all_works (fun _ => true) c5Resp [] [] [SearchResult.page [⟨some 1, "a"⟩] false]

theorem claim_c5_witness :
    1 ∉ c5Run.scraped ∧
    c5Run.worksConsumed = getAllWorks [SearchResult.page [⟨some 1, "a"⟩] false] ∧
    c5Run.finalFlush = c5Run.scraped :=
  claim_c5_batch_error_nonfatal (fun _ => true) c5Resp [] []
    [SearchResult.page [⟨some 1, "a"⟩] false] 0 1
    (by decide) rfl (by decide) (by decide)
    (fun j recs hj => by cases hj)

/-- Claim C6 counterexample: the run `c6Run 21` completes 42 new items (the
checkpoint list grows from 1 to 43 entries) and performs zero periodic
progress-file writes, because the length check
`len(scraped_ids) % (BATCH_SIZE * 2) == 0` never fires on an odd count —
so the checkpoint is not flushed after every `2 * BATCH_SIZE = 40`
newly-completed items, nor at any other bounded interval. -/
theorem claim_c6_counterexample :
    (c6Run 21).scraped.length = 43 ∧ (c6Run 21).periodicFlushes = 0 := by
  obtain ⟨h1, h2, h3⟩ := c6_run_spec 21
  exact ⟨by rw [h2], h1⟩

/-- Claim C6 (amended): the periodic progress write fires only when the
checkpoint list length happens to be an exact multiple of
`BATCH_SIZE * 2` at a post-batch check — there are runs with arbitrarily
many newly-completed items and zero periodic flushes (`c6Run n` for every
`n`) — while the shutdown flush is unconditional: every run, and every run
interrupted between loop iterations, writes its full `scraped_ids` list in
the `finally` block. -/
theorem claim_c6_flush_cadence :
    (∀ n : Nat, (c6Run n).periodicFlushes = 0 ∧ (c6Run n).scraped.length = 2 * n + 1 ∧
      (c6Run n).finalFlush = (c6Run n).scraped) ∧
    (∀ (writeOk : Nat → Bool) (batchResp : Nat → BatchResult) (init : List Nat)
        (initStore : List (Nat × String)) (script : List SearchResult),
      (scrape_all_works writeOk batchResp init initStore script).finalFlush
        = (scrape_all_works writeOk batchResp init initStore script).scraped) ∧
    (∀ (writeOk : Nat → Bool) (batchResp : Nat → BatchResult) (init : List Nat)
        (initStore : List (Nat × String)) (script : List SearchResult) (k : Nat),
      (scrape_all_works_interrupted writeOk batchResp init initStore script k).finalFlush
        = (scrape_all_works_interrupted writeOk batchResp init initStore script k).scraped) :=
  ⟨c6_run_spec, fun _ _ _ _ _ => rfl, fun _ _ _ _ _ _ => rfl⟩

/-- Claim C7 (confirmed): in every run, every `get_texts_batch` call is
made with at least one and at most `BATCH_SIZE` ids: the buffer is flushed
exactly when it reaches `BATCH_SIZE`, the filtered id list is no longer
than the buffer, and an empty filtered list skips the call. -/
theorem claim_c7_batch_size_invariant (writeOk : Nat → Bool) (batchResp : Nat → BatchResult)
    (init : List Nat) (initStore : List (Nat × String)) (script : List SearchResult) :
    ∀ c ∈ (scrape_all_works writeOk batchResp init initStore script).batchCalls,
      0 < c.length ∧ c.length ≤ BATCH_SIZE := by
  obtain ⟨hc, hb⟩ := scrapeLoop_callsOK writeOk batchResp (getAllWorks script)
    (initState init initStore) (by intro c hc; cases hc)
    (by show (0 : Nat) < BATCH_SIZE; decide)
  exact tailBatch_callsOK writeOk batchResp
    (scrapeLoop writeOk batchResp (getAllWorks script) (initState init initStore)) hc hb

/-- Run for the C7 witness: a single tail batch call with one id. -/
def c7Run : RunResult :=
  scrape_all_works (fun _ => true) (fun _ => BatchResult.ok []) [] []
    [SearchResult.page [⟨some 1, "a"⟩] false]

theorem claim_c7_witness : 0 < ([1] : List Nat).length ∧ ([1] : List Nat).length ≤ BATCH_SIZE :=
  claim_c7_batch_size_invariant (fun _ => true) (fun _ => BatchResult.ok []) [] []
    [SearchResult.page [⟨some 1, "a"⟩] false] [1] (by decide)

/-- Claim C8 counterexample: `get_texts_batch` does not reject an empty or
oversized id list — it issues the request payload unchanged — whereas the
spec-modelled `fetch_batch_spec` fails with `InvalidArgument` on both. -/
theorem claim_c8_counterexample :
    get_texts_batch "k" [] = Except.ok
      { key := "k", ids := [], view := "enriched", file_format := "txt", snippet := true } ∧
    fetch_batch_spec "k" [] = Except.error ApiError.invalidArgument ∧
    fetch_batch_spec "k" (List.range 21) = Except.error ApiError.invalidArgument ∧
    get_texts_batch "k" (List.range 21) ≠ fetch_batch_spec "k" (List.range 21) := by
  refine ⟨rfl, by decide, by decide, by decide⟩

/-- Claim C8 (amended): `get_texts_batch` performs no client-side argument
validation at all: for every id list — empty and oversized included — it
issues the batch request with exactly the given ids and never fails. -/
theorem claim_c8_no_validation (key : String) (text_ids : List Nat) :
    get_texts_batch key text_ids = Except.ok
      { key := key, ids := text_ids, view := "enriched", file_format := "txt",
        snippet := true } := rfl

/-- Claim C9 counterexample: while `save_work` rewrites a record whose old
content is `"aa"` with new content `"bbbb"`, the truncated empty file is an
observable intermediate state that is neither the old nor the new content
— the in-place `open(..., 'w')` plus `json.dump` write is not atomic. -/
theorem claim_c9_counterexample :
    some ([] : List Char) ∈ writeTrace (some ['a', 'a']) ['b', 'b', 'b', 'b'] ∧
    some ([] : List Char) ≠ some ['a', 'a'] ∧
    some ([] : List Char) ≠ some ['b', 'b', 'b', 'b'] := by
  refine ⟨by simp [writeTrace], by decide, by decide⟩

/-- Claim C9 (amended): `save_work` is an idempotent wholesale overwrite —
the final state of the trace is exactly the new content, whatever was
there before — but it is not atomic: the write truncates in place, so the
empty file is always an observable intermediate state, and an interruption
mid-write leaves a partially-written record. -/
theorem claim_c9_write_not_atomic (old : Option (List Char)) (c : List Char) :
    (writeTrace old c).head? = some old ∧
    some ([] : List Char) ∈ writeTrace old c ∧
    (writeTrace old c).getLast? = some (some c) :=
  ⟨rfl, by simp [writeTrace], writeTrace_getLast old c⟩

/-- Claim C10 (confirmed): row parsing of `BenYehudaDataset.__init__` is
not total.  `int(path.split('/')[1][1:])` is evaluated before the
`if not author_id or not path` guard, so a row whose stripped `path` has no
second `'/'`-separated segment (the empty path included) raises an uncaught
`IndexError`, a non-numeric segment raises an uncaught `ValueError`, and
consequently the `not path` branch of the guard is unreachable: any row
that gets past the parse has a non-empty path. -/
theorem claim_c10_row_parse_not_total (s : String) :
    (pyStrip s = "" → processRow s = Except.error PyError.indexError) ∧
    ((pySplit (pyStrip s).toList).length ≤ 1 →
      processRow s = Except.error PyError.indexError) ∧
    (∀ seg, (pySplit (pyStrip s).toList).get? 1 = some seg → pyInt (seg.drop 1) = none →
      processRow s = Except.error PyError.valueError) ∧
    (∀ r, processRow s = Except.ok r → pyStrip s ≠ "") := by
  have hempty : pyStrip s = "" → processRow s = Except.error PyError.indexError := by
    intro h
    show processPath (pyStrip s) = Except.error PyError.indexError
    rw [h]
    rfl
  refine ⟨hempty, ?_, ?_, ?_⟩
  · intro hlen
    have hnone : (pySplit (pyStrip s).toList).get? 1 = none := List.get?_eq_none.mpr hlen
    show processPath (pyStrip s) = Except.error PyError.indexError
    unfold processPath
    rw [hnone]
  · intro seg hseg hint
    show processPath (pyStrip s) = Except.error PyError.valueError
    unfold processPath
    rw [hseg]
    dsimp only
    rw [hint]
  · intro r hr h
    rw [hempty h] at hr
    exact Except.noConfusion hr

theorem claim_c10_witness :
    processRow "" = Except.error PyError.indexError ∧
    processRow "/x/y" = Except.error PyError.valueError ∧
    pyStrip "/a7/f" ≠ "" := by
  refine ⟨(claim_c10_row_parse_not_total "").1 (by decide),
    (claim_c10_row_parse_not_total "/x/y").2.2.1 ['x'] (by decide) (by decide),
    (claim_c10_row_parse_not_total "/a7/f").2.2.2 (RowOutcome.proceed 7 "/a7/f") (by decide)⟩
